import Mathlib

/-!
Shallow embedding of the robust-estimation and triangulation pipeline of
educelab/pgs-recon (files src/dependencies/utilities/src/RANSAC.hpp and
src/dependencies/utilities/src/global_scaler.cpp), together with theorems
checking the natural-language specification against it.

Machine doubles are modelled as real numbers; the IEEE infinity used as the
default of the error and inlier_rmse fields is modelled with WithTop.
External numerical routines (the openMVG algebraic triangulation solve, the
Eigen NaN check, the camera residual and the pose transform) are modelled as
explicit function parameters or record fields, since they live outside this
repository.  Randomness is modelled by passing the per-iteration sample
lists explicitly: the i-th loop iteration draws the list at index i.
-/

namespace PgsRecon

/-- 2D point (openMVG Vec2). -/
abbrev Vec2 := ℝ × ℝ

/-- 3D point (openMVG Vec3). -/
abbrev Vec3 := ℝ × ℝ × ℝ

/-- Homogeneous 4-vector (openMVG Vec4). -/
abbrev Vec4 := ℝ × ℝ × ℝ × ℝ

/-- Componentwise difference of 3D points. -/
def sub3 (a b : Vec3) : Vec3 := (a.1 - b.1, a.2.1 - b.2.1, a.2.2 - b.2.2)

/-- Dot product of 3D vectors. -/
def dot3 (a b : Vec3) : ℝ := a.1 * b.1 + a.2.1 * b.2.1 + a.2.2 * b.2.2

/-- Euclidean norm of a 2D vector (Eigen .norm on a Vec2). -/
noncomputable def norm2 (v : Vec2) : ℝ := Real.sqrt (v.1 ^ 2 + v.2 ^ 2)

/-- Euclidean norm of a 3D vector (Eigen .norm on a Vec3). -/
noncomputable def norm3 (v : Vec3) : ℝ :=
  Real.sqrt (v.1 ^ 2 + v.2.1 ^ 2 + v.2.2 ^ 2)

/-!
## RANSAC.hpp: the generic RANSAC engine

C++ source: template RANSACResult of a Value type and a scalar type T; the
repository always instantiates T = double, so the scalar is modelled as ℝ.
-/

/-- ransac::RANSACResult, RANSAC.hpp lines 12-18.  Default member values:
error = INF, fitness = 0, inliers empty, inlier_rmse = INF, success = false. -/
structure RANSACResult (V : Type) where
  error : WithTop ℝ
  fitness : ℝ
  inliers : List V
  inlier_rmse : WithTop ℝ
  success : Bool

/-- The default-constructed RANSACResult (EvalResult bestResult; line 29). -/
def RANSACResult.init (V : Type) : RANSACResult V :=
  { error := ⊤, fitness := 0, inliers := [], inlier_rmse := ⊤, success := false }

/-- Mutable state of the RANSAC loop: best result, best model and the
adaptive iteration bound breakIter (RANSAC.hpp lines 29-30, 39). -/
structure RState (V M : Type) where
  best : RANSACResult V
  bestM : M
  breakIter : ℕ

/-- The adaptive iteration budget recomputed on each accepted improvement:
log(1 - probability) / log(1 - fitness ^ nSamples)  (RANSAC.hpp lines 71-72). -/
noncomputable def budget (probability : ℝ) (nSamples : ℕ) (fitness : ℝ) : ℝ :=
  Real.log (1 - probability) / Real.log (1 - fitness ^ nSamples)

/-- One iteration of the RANSAC loop body, RANSAC.hpp lines 46-76, minus the
random sampling which is passed in as the already-drawn sample list.  Returns
the updated state and whether the loop breaks (the fitness = 1 early exit).
The C++ stores min(nIters, budget) in the std::size_t breakIter, truncating
the double; this is the natural-number floor here. -/
noncomputable def ransacBody {V M : Type} (x : List V) (fit : List V → Bool × M)
    (eval : List V → M → RANSACResult V) (nSamples nIters : ℕ) (probability : ℝ)
    (s : RState V M) (sample : List V) : RState V M × Bool :=
  let fm := fit sample
  if fm.1 = false then (s, false)
  else
    let result := eval x fm.2
    if result.success = false then (s, false)
    else if result.fitness > s.best.fitness ∨
        (result.fitness = s.best.fitness ∧
          result.inlier_rmse > s.best.inlier_rmse) then
      if result.fitness < 1 then
        (⟨result, fm.2,
          ⌊min (nIters : ℝ) (budget probability nSamples result.fitness)⌋₊⟩,
         false)
      else
        (⟨result, fm.2, s.breakIter⟩, true)
    else (s, false)

/-- The RANSAC iteration loop, RANSAC.hpp lines 40-77.  fuel counts the
remaining iterations (initially nIters, so i ranges over 0..nIters-1); at the
top of each iteration the loop exits early when i is greater than breakIter. -/
noncomputable def ransacLoop {V M : Type} (x : List V) (fit : List V → Bool × M)
    (eval : List V → M → RANSACResult V) (nSamples nIters : ℕ) (probability : ℝ)
    (draws : ℕ → List V) : ℕ → ℕ → RState V M → RState V M
  | 0, _, s => s
  | fuel + 1, i, s =>
    if i > s.breakIter then s
    else
      let sb := ransacBody x fit eval nSamples nIters probability s (draws i)
      if sb.2 then sb.1
      else ransacLoop x fit eval nSamples nIters probability draws fuel (i + 1) sb.1

/-- ransac::RANSAC, RANSAC.hpp lines 20-84.  m0 models the default-constructed
Model bestModel.  After the loop (lines 79-83): bestResult is reassigned to
eval of the full dataset against the best model, then success and the model
are reassigned from fit applied to that result's inliers. -/
noncomputable def RANSAC {V M : Type} (x : List V) (fit : List V → Bool × M)
    (eval : List V → M → RANSACResult V) (nSamples nIters : ℕ)
    (draws : ℕ → List V) (probability : ℝ) (m0 : M) : M × RANSACResult V :=
  let s := ransacLoop x fit eval nSamples nIters probability draws nIters 0
    ⟨RANSACResult.init V, m0, nIters⟩
  let bestResult := eval x s.bestM
  let fm := fit bestResult.inliers
  (fm.2, { bestResult with success := fm.1 })

/-- RANSAC.hpp lines 32-36: the engine uses a process-wide static mt19937.
If a seed is provided, the generator is reseeded at call start; otherwise the
pre-existing global generator state is used.  The generator state is an
abstract token; mtInit models deterministic mt19937 seeding and sampler
models the deterministic sample stream std::sample produces from a state. -/
noncomputable def RANSACwithSeed {V M : Type} (mtInit : ℕ → ℕ)
    (sampler : ℕ → ℕ → List V) (globalState : ℕ) (seed : Option ℕ)
    (x : List V) (fit : List V → Bool × M)
    (eval : List V → M → RANSACResult V) (nSamples nIters : ℕ)
    (probability : ℝ) (m0 : M) : M × RANSACResult V :=
  let state := match seed with
    | some sd => mtInit sd
    | none => globalState
  RANSAC x fit eval nSamples nIters (sampler state) probability m0

/-!
## global_scaler.cpp: the triangulation model

RansacObservation (lines 111-121) carries the 2D pixel observation, the
camera-space point (ray), and capabilities of two external collaborators:
the camera model (its residual function, cam->residual(...).norm composed of
the residual Vec2 and the Eigen norm) and the pose (application of the rigid
transform to a world point, ro.pose(X)).
-/

/-- RansacObservation, global_scaler.cpp lines 111-121.  The cam field of the
C++ struct is a shared camera object; only its residual member is ever
called on it, so the capability is modelled directly.  The pose field is
likewise modelled by its application to a 3D point. -/
structure RansacObservation where
  obs : Vec2
  pt : Vec3
  camResidual : Vec3 → Vec2 → Vec2
  pose : Vec3 → Vec3

/-- Eigen hnormalized on a homogeneous 4-vector: divide through by the last
coordinate (global_scaler.cpp line 141). -/
noncomputable def hnormalized (v : Vec4) : Vec3 :=
  (v.1 / v.2.2.2, v.2.1 / v.2.2.2, v.2.2.1 / v.2.2.2)

/-- The cheirality test of one observation against a candidate 3D point:
the camera-space ray dotted with the pose-transformed point is positive
(global_scaler.cpp lines 149 and 166). -/
def cheirality (ro : RansacObservation) (X : Vec3) : Prop :=
  0 < dot3 ro.pt (ro.pose X)

noncomputable instance (ro : RansacObservation) (X : Vec3) :
    Decidable (cheirality ro X) :=
  inferInstanceAs (Decidable (0 < _))

/-- Reprojection residual of a candidate point against one observation:
ro.cam->residual(ro.pose(X), ro.obs).norm()  (global_scaler.cpp line 171). -/
noncomputable def reprojErr (ro : RansacObservation) (X : Vec3) : ℝ :=
  norm2 (ro.camResidual (ro.pose X) ro.obs)

/-- Triangulate, global_scaler.cpp lines 123-156.  The algebraic multi-view
solve TriangulateNViewAlgebraic is an external openMVG routine, passed in as
the solve parameter (none models a failed solve); the Eigen hasNaN check on
the normalized point is likewise external and passed in as hasNaNChk. -/
noncomputable def Triangulate (solve : List RansacObservation → Option Vec4)
    (hasNaNChk : Vec3 → Bool) (x : List RansacObservation) : Bool × Vec3 :=
  match solve x with
  | none => (false, (0, 0, 0))
  | some Xh =>
    let X := hnormalized Xh
    if hasNaNChk X then (false, (0, 0, 0))
    else if x.all fun ro => decide (cheirality ro X) then (true, X)
    else (false, (0, 0, 0))

/-- The fixed inlier threshold 0.1 of EvalTriangulate (global_scaler.cpp
line 163). -/
noncomputable def threshold : ℝ := 1 / 10

/-- The loop of EvalTriangulate (global_scaler.cpp lines 164-176): walk the
observations accumulating the error and the inliers; the first cheirality
failure abandons the whole evaluation (modelled by none). -/
noncomputable def evalTriLoop (X : Vec3) :
    List RansacObservation → ℝ → List RansacObservation →
      Option (ℝ × List RansacObservation)
  | [], e, inl => some (e, inl)
  | ro :: rest, e, inl =>
    if cheirality ro X then
      let err := reprojErr ro X
      if err < threshold then evalTriLoop X rest (e + err) (inl ++ [ro])
      else evalTriLoop X rest e inl
    else none

/-- EvalTriangulate, global_scaler.cpp lines 158-187.  On a cheirality
failure the default result is returned; otherwise success is set, and
fitness and inlier_rmse are filled in only when at least one inlier was
found. -/
noncomputable def EvalTriangulate (x : List RansacObservation) (X : Vec3) :
    RANSACResult RansacObservation :=
  match evalTriLoop X x 0 [] with
  | none => RANSACResult.init RansacObservation
  | some (e, inl) =>
    { error := (e : WithTop ℝ)
      fitness := if 0 < inl.length then (inl.length : ℝ) / (x.length : ℝ) else 0
      inliers := inl
      inlier_rmse :=
        if 0 < inl.length then ((e / Real.sqrt (inl.length : ℝ) : ℝ) : WithTop ℝ)
        else ⊤
      success := true }

/-- Declarative counterpart of EvalTriangulate, written from the words of
the specification (spec sections 4.2 and claim C4): if any observation fails
the cheirality test against X the default result is returned; otherwise the
result is successful, its inliers are exactly the observations whose
reprojection residual is below 0.1, its error is the sum of the inlier
residuals, fitness is the count of inliers over the count of all
observations, and inlier_rmse is error over the square root of the inlier
count when there is at least one inlier and infinite otherwise. -/
noncomputable def EvalTriangulateSpec (x : List RansacObservation) (X : Vec3) :
    RANSACResult RansacObservation :=
  if ∃ ro ∈ x, ¬ cheirality ro X then RANSACResult.init RansacObservation
  else
    let inl := x.filter fun ro => decide (reprojErr ro X < threshold)
    let e := (inl.map fun ro => reprojErr ro X).sum
    { error := (e : WithTop ℝ)
      fitness := (inl.length : ℝ) / (x.length : ℝ)
      inliers := inl
      inlier_rmse :=
        if 0 < inl.length then ((e / Real.sqrt (inl.length : ℝ) : ℝ) : WithTop ℝ)
        else ⊤
      success := true }

/-!
## global_scaler.cpp: landmark store, triangulation pass, scale estimation
-/

/-- pgs::Landmark, global_scaler.cpp lines 50-56.  obs pairs a view id with
a 2D pixel location; X is the optional triangulated position. -/
structure Landmark where
  id : String
  obs : List (ℕ × Vec2)
  X : Option Vec3

/-- The default-constructed pgs::Landmark. -/
def Landmark.init : Landmark := { id := "", obs := [], X := none }

/-- pgs::Landmarks (line 59): landmarks indexed by id.  The std::map is
modelled as an association list; only key lookup and default insertion are
exercised by the code under scrutiny, so order does not matter for them. -/
abbrev Landmarks := List (String × Landmark)

/-- Key lookup in the landmark map (std::map find semantics). -/
def lfind (m : Landmarks) (k : String) : Option Landmark :=
  (m.find? fun p => p.1 = k).map fun p => p.2

/-- std::map operator[] (global_scaler.cpp lines 698-699): return the mapped
landmark, inserting a default-constructed one first if the key is absent.
Returns the found or inserted landmark together with the updated map. -/
def lindex (m : Landmarks) (k : String) : Landmark × Landmarks :=
  match m.find? fun p => p.1 = k with
  | some p => (p.2, m)
  | none => (Landmark.init, m ++ [(k, Landmark.init)])

/-- GetLandmarkID, global_scaler.cpp lines 275-277: marker id and corner
index joined by a dot. -/
def GetLandmarkID (arucoID cornerID : ℤ) : String :=
  toString arucoID ++ "." ++ toString cornerID

/-- The triangulated position visible in the landmark map at a key. -/
def Lx (m : Landmarks) (k : String) : Option Vec3 :=
  (lfind m k).bind Landmark.X

/-- The triangulation pass over the landmark store, global_scaler.cpp lines
641-681.  Landmarks with fewer than 3 observations are skipped (warning
only); each remaining landmark's observations are resolved into
RansacObservation values by mkObs (the external camera and pose lookup,
lines 650-664) and triangulated by triang (TriangulateRansac or Triangulate
per the no-ransac flag); on success X is set and the triangulated count
grows, on failure the landmark is left untouched (warning only). -/
def triangulatePass (triang : List RansacObservation → Bool × Vec3)
    (mkObs : ℕ × Vec2 → RansacObservation) : Landmarks → Landmarks × ℕ
  | [] => ([], 0)
  | (k, ldm) :: rest =>
    if ldm.obs.length < 3 then
      let rn := triangulatePass triang mkObs rest
      ((k, ldm) :: rn.1, rn.2)
    else
      let sX := triang (ldm.obs.map mkObs)
      let rn := triangulatePass triang mkObs rest
      if sX.1 then ((k, { ldm with X := some sX.2 }) :: rn.1, rn.2 + 1)
      else ((k, ldm) :: rn.1, rn.2)

/-- Declarative counterpart of triangulatePass, written from the words of
the specification (spec section 4.3 and claim C7): every landmark is kept,
in order, with its position set exactly when it has at least 3 observations
and triangulation succeeds on them, and left as it was otherwise; the count
is the number of landmarks of the first kind. -/
def triangulatePassSpec (triang : List RansacObservation → Bool × Vec3)
    (mkObs : ℕ × Vec2 → RansacObservation) (ldms : Landmarks) :
    Landmarks × ℕ :=
  (ldms.map fun p =>
      if 3 ≤ p.2.obs.length ∧ (triang (p.2.obs.map mkObs)).1 then
        (p.1, { p.2 with X := some (triang (p.2.obs.map mkObs)).2 })
      else p,
   ldms.countP fun p =>
      decide (3 ≤ p.2.obs.length) && (triang (p.2.obs.map mkObs)).1)

/-- The inner loop of the measurement phase, global_scaler.cpp lines
696-707: for corner indices i (taken from the list 0,1,2,3), the cyclic
successor nI, operator[] lookups of both corner landmarks (each lookup may
insert a default landmark), and when both have triangulated positions a
scale sample markerSize / distance is appended. -/
noncomputable def measureEdges (markerSize : ℝ) (markerID : ℤ) :
    List ℤ → Landmarks → List ℝ → List ℝ × Landmarks
  | [], m, acc => (acc, m)
  | i :: rest, m, acc =>
    let nI := if i = 3 then 0 else i + 1
    let r0 := lindex m (GetLandmarkID markerID i)
    let r1 := lindex r0.2 (GetLandmarkID markerID nI)
    match r0.1.X, r1.1.X with
    | some c0, some c1 =>
      measureEdges markerSize markerID rest r1.2
        (acc ++ [markerSize / norm3 (sub3 c1 c0)])
    | some _, none => measureEdges markerSize markerID rest r1.2 acc
    | none, _ => measureEdges markerSize markerID rest r1.2 acc

/-- The outer loop of the measurement phase over all observed marker ids,
global_scaler.cpp lines 694-708. -/
noncomputable def measureMarkers (markerSize : ℝ) :
    List ℤ → Landmarks → List ℝ → List ℝ × Landmarks
  | [], m, acc => (acc, m)
  | mid :: rest, m, acc =>
    let am := measureEdges markerSize mid [0, 1, 2, 3] m acc
    measureMarkers markerSize rest am.2 am.1

/-- The whole measurement phase: scale samples collected over every observed
marker's 4 corner edges, starting from an empty sample list, together with
the landmark map as it stands afterwards. -/
noncomputable def measureScales (markerSize : ℝ) (markerIDs : List ℤ)
    (ldms : Landmarks) : List ℝ × Landmarks :=
  measureMarkers markerSize markerIDs ldms []

/-- One edge's scale sample as the specification words it (spec section 4.4
and claim C8): if both endpoint corners of the edge from corner i to its
cyclic successor have triangulated positions, the known edge length divided
by the distance between them, otherwise nothing. -/
noncomputable def edgeSampleSpec (markerSize : ℝ) (ldms : Landmarks)
    (markerID i : ℤ) : Option ℝ :=
  let nI := if i = 3 then 0 else i + 1
  match Lx ldms (GetLandmarkID markerID i),
      Lx ldms (GetLandmarkID markerID nI) with
  | some c0, some c1 => some (markerSize / norm3 (sub3 c1 c0))
  | some _, none => none
  | none, _ => none

/-- All scale samples of one marker, in cyclic corner order, as the
specification words it. -/
noncomputable def markerSamplesSpec (markerSize : ℝ) (ldms : Landmarks)
    (markerID : ℤ) : List ℝ :=
  ([0, 1, 2, 3] : List ℤ).filterMap (edgeSampleSpec markerSize ldms markerID)

/-- The final scale, global_scaler.cpp lines 720-724: std::accumulate over
the samples starting from 0, adding each sample divided by the sample
count. -/
noncomputable def scaleOf (scales : List ℝ) : ℝ :=
  scales.foldl (fun a b => a + b / (scales.length : ℝ)) 0

/-- The exit codes of global_scaler.cpp lines 407-414. -/
inductive ExitCode where
  | SUCCESS
  | HELP
  | BAD_ARG
  | NO_VIEWS
  | NO_LDMS
  | NO_SCALES
deriving DecidableEq

/-- The scale-estimation tail of main, global_scaler.cpp lines 641-725:
triangulate the landmark store, fail with NO_LDMS when fewer than 2
landmarks were triangulated, measure the marker edges, fail with NO_SCALES
when no scale sample was collected, and otherwise return the accumulated
scale.  (The fewer-than-10-samples low-confidence warning at line 717 is a
log line only.) -/
noncomputable def estimateScale (triang : List RansacObservation → Bool × Vec3)
    (mkObs : ℕ × Vec2 → RansacObservation) (markerSize : ℝ)
    (markerIDs : List ℤ) (landmarks : Landmarks) : Except ExitCode ℝ :=
  let tn := triangulatePass triang mkObs landmarks
  if tn.2 < 2 then Except.error ExitCode.NO_LDMS
  else
    let sm := measureScales markerSize markerIDs tn.1
    if sm.1.isEmpty then Except.error ExitCode.NO_SCALES
    else Except.ok (scaleOf sm.1)

/-!
## Helper lemmas
-/

/-- Characterization of one loop-body iteration when the fit succeeded and
the evaluation reported success. -/
theorem ransacBody_eq {V M : Type} (x : List V) (fit : List V → Bool × M)
    (eval : List V → M → RANSACResult V) (nSamples nIters : ℕ) (probability : ℝ)
    (s : RState V M) (sample : List V) (m : M) (r : RANSACResult V)
    (hf : fit sample = (true, m)) (he : eval x m = r) (hs : r.success = true) :
    ransacBody x fit eval nSamples nIters probability s sample =
      if r.fitness > s.best.fitness ∨
          (r.fitness = s.best.fitness ∧ r.inlier_rmse > s.best.inlier_rmse) then
        if r.fitness < 1 then
          (⟨r, m, ⌊min (nIters : ℝ) (budget probability nSamples r.fitness)⌋₊⟩,
           false)
        else (⟨r, m, s.breakIter⟩, true)
      else (s, false) := by
  unfold ransacBody
  rw [hf]
  simp only [he, hs]
  simp

/-!
## Claim C3: the best-model update rule
-/

/-- Claim C3: in every iteration of the RANSAC loop, a candidate model that
passed the fit function and whose evaluation reports success replaces the
current best model and result exactly when its fitness is strictly greater
than the best fitness, or its fitness equals the best fitness and its
inlier_rmse is strictly greater than the best inlier_rmse; otherwise the
iteration leaves the state unchanged. -/
theorem ransac_update_rule {V M : Type} (x : List V) (fit : List V → Bool × M)
    (eval : List V → M → RANSACResult V) (nSamples nIters : ℕ) (probability : ℝ)
    (s : RState V M) (sample : List V) (m : M) (r : RANSACResult V)
    (hf : fit sample = (true, m)) (he : eval x m = r) (hs : r.success = true) :
    ((r.fitness > s.best.fitness ∨
        (r.fitness = s.best.fitness ∧ r.inlier_rmse > s.best.inlier_rmse)) →
      (ransacBody x fit eval nSamples nIters probability s sample).1.best = r ∧
      (ransacBody x fit eval nSamples nIters probability s sample).1.bestM = m) ∧
    (¬ (r.fitness > s.best.fitness ∨
        (r.fitness = s.best.fitness ∧ r.inlier_rmse > s.best.inlier_rmse)) →
      ransacBody x fit eval nSamples nIters probability s sample = (s, false)) := by
  rw [ransacBody_eq x fit eval nSamples nIters probability s sample m r hf he hs]
  constructor
  · intro h
    rw [if_pos h]
    by_cases hlt : r.fitness < 1
    · rw [if_pos hlt]
      exact ⟨rfl, rfl⟩
    · rw [if_neg hlt]
      exact ⟨rfl, rfl⟩
  · intro h
    rw [if_neg h]

/-- A concrete fit function for witnesses: always succeeds, the model is the
sample length. -/
def lenFit : List ℕ → Bool × ℕ := fun xs => (true, xs.length)

/-- A concrete successful evaluation result with fitness one half. -/
noncomputable def halfResult : RANSACResult ℕ :=
  { error := 0, fitness := 1 / 2, inliers := [], inlier_rmse := 0,
    success := true }

/-- A concrete evaluation function for witnesses: always returns
halfResult. -/
noncomputable def halfEval : List ℕ → ℕ → RANSACResult ℕ := fun _ _ => halfResult

/-- Witness for claim C3 at a concrete input: the initial state, a sample
whose fit yields model 1, and the constant evaluation with fitness one
half. -/
theorem ransac_update_rule_witness :
    (lenFit [5] = (true, 1)) ∧ (halfEval [5] 1 = halfResult) ∧
    (halfResult.success = true) ∧
    (((halfResult.fitness > (RState.mk (RANSACResult.init ℕ) 0 9).best.fitness ∨
        (halfResult.fitness = (RState.mk (RANSACResult.init ℕ) 0 9).best.fitness ∧
          halfResult.inlier_rmse >
            (RState.mk (RANSACResult.init ℕ) 0 9).best.inlier_rmse)) →
      (ransacBody [5] lenFit halfEval 2 9 (1 / 2)
        (RState.mk (RANSACResult.init ℕ) 0 9) [5]).1.best = halfResult ∧
      (ransacBody [5] lenFit halfEval 2 9 (1 / 2)
        (RState.mk (RANSACResult.init ℕ) 0 9) [5]).1.bestM = 1) ∧
    (¬ (halfResult.fitness > (RState.mk (RANSACResult.init ℕ) 0 9).best.fitness ∨
        (halfResult.fitness = (RState.mk (RANSACResult.init ℕ) 0 9).best.fitness ∧
          halfResult.inlier_rmse >
            (RState.mk (RANSACResult.init ℕ) 0 9).best.inlier_rmse)) →
      ransacBody [5] lenFit halfEval 2 9 (1 / 2)
        (RState.mk (RANSACResult.init ℕ) 0 9) [5] =
          (RState.mk (RANSACResult.init ℕ) 0 9, false))) :=
  ⟨rfl, rfl, rfl,
    ransac_update_rule [5] lenFit halfEval 2 9 (1 / 2)
      (RState.mk (RANSACResult.init ℕ) 0 9) [5] 1 halfResult rfl rfl rfl⟩

/-!
## Claim C9: seeded determinism
-/

/-- Claim C9: two calls to the RANSAC engine with identical data, identical
parameters and the same explicit seed produce identical model and result
pairs.  The process-wide generator state that the static mt19937 carries
between calls is quantified as globalState, and providing a seed makes the
output independent of it: the generator is reseeded deterministically at
call start. -/
theorem ransac_seeded_deterministic {V M : Type} (mtInit : ℕ → ℕ)
    (sampler : ℕ → ℕ → List V) (g1 g2 : ℕ) (sd : ℕ) (x : List V)
    (fit : List V → Bool × M) (eval : List V → M → RANSACResult V)
    (nSamples nIters : ℕ) (probability : ℝ) (m0 : M) :
    RANSACwithSeed mtInit sampler g1 (some sd) x fit eval nSamples nIters
        probability m0 =
      RANSACwithSeed mtInit sampler g2 (some sd) x fit eval nSamples nIters
        probability m0 := rfl

/-!
## Claim C2: the finalization step

The source (RANSAC.hpp lines 79-83) first re-evaluates the loop's best
model against the full dataset and only then refits on that evaluation's
inliers: the returned result therefore describes the pre-refit model, not
the refit model that is returned.
-/

/-- A successful evaluation result with fitness one quarter, distinct from
halfResult. -/
noncomputable def quarterResult : RANSACResult ℕ :=
  { error := 0, fitness := 1 / 4, inliers := [], inlier_rmse := 0,
    success := true }

/-- A model-sensitive evaluation: model 0 scores a quarter, any other model
scores a half. -/
noncomputable def modelEval : List ℕ → ℕ → RANSACResult ℕ := fun _ m =>
  if m = 0 then quarterResult else halfResult

/-- The constant sample stream drawing the single data element. -/
def zeroDraws : ℕ → List ℕ := fun _ => [0]

/-- Counterexample to claim C2 at a concrete input: one iteration fits
model 1 (fitness one half); the finalization refits on the empty inlier
list, producing model 0, yet the returned result still carries the
statistics of model 1 — it differs from the evaluation of the full dataset
against the returned (refit) model 0, whose fitness is one quarter. -/
theorem ransac_refit_result_mismatch :
    (RANSAC [0] lenFit modelEval 1 1 zeroDraws (1 / 2) 0).2 ≠
      modelEval [0] (RANSAC [0] lenFit modelEval 1 1 zeroDraws (1 / 2) 0).1 := by
  have hb : ransacBody [0] lenFit modelEval 1 1 (1 / 2)
      (⟨RANSACResult.init ℕ, 0, 1⟩ : RState ℕ ℕ) [0] =
      (⟨halfResult, 1,
        ⌊min ((1 : ℕ) : ℝ) (budget (1 / 2) 1 halfResult.fitness)⌋₊⟩, false) := by
    unfold ransacBody
    norm_num [lenFit, modelEval, halfResult, RANSACResult.init]
  have hl : ransacLoop [0] lenFit modelEval 1 1 (1 / 2) zeroDraws 1 0
      (⟨RANSACResult.init ℕ, 0, 1⟩ : RState ℕ ℕ) =
      ⟨halfResult, 1,
        ⌊min ((1 : ℕ) : ℝ) (budget (1 / 2) 1 halfResult.fitness)⌋₊⟩ := by
    unfold ransacLoop
    rw [show zeroDraws 0 = [0] from rfl]
    norm_num [hb]
    unfold ransacLoop
    rfl
  have hrun : RANSAC [0] lenFit modelEval 1 1 zeroDraws (1 / 2) 0 =
      (0, halfResult) := by
    unfold RANSAC
    rw [hl]
    norm_num [modelEval, lenFit, halfResult]
  rw [hrun]
  show halfResult ≠ modelEval [0] 0
  simp only [modelEval, if_pos rfl]
  intro h
  have h2 := congrArg RANSACResult.fitness h
  simp only [halfResult, quarterResult] at h2
  norm_num at h2

/-- Claim C2 (amended): after the loop, the engine first re-evaluates the
loop's best model against the full dataset, then refits via the fit
function on that evaluation's inlier list; the returned model is the refit
model, but the returned result is the evaluation of the pre-refit best
model with only its success flag replaced by the refit's success flag — the
returned statistics describe the pre-refit model, not the refit model. -/
theorem ransac_finalize_prerefit {V M : Type} (x : List V)
    (fit : List V → Bool × M) (eval : List V → M → RANSACResult V)
    (nSamples nIters : ℕ) (draws : ℕ → List V) (probability : ℝ) (m0 : M) :
    RANSAC x fit eval nSamples nIters draws probability m0 =
      ((fit (eval x (ransacLoop x fit eval nSamples nIters probability draws
          nIters 0 ⟨RANSACResult.init V, m0, nIters⟩).bestM).inliers).2,
       { eval x (ransacLoop x fit eval nSamples nIters probability draws
            nIters 0 ⟨RANSACResult.init V, m0, nIters⟩).bestM with
          success := (fit (eval x (ransacLoop x fit eval nSamples nIters
            probability draws nIters 0
            ⟨RANSACResult.init V, m0, nIters⟩).bestM).inliers).1 }) := rfl

/-!
## Claims C4 and C5: the triangulation model
-/

/-- Characterization of the EvalTriangulate loop: it aborts exactly when
some observation fails cheirality, and otherwise accumulates the filtered
inliers and their residual sum in order. -/
theorem evalTriLoop_eq (X : Vec3) (l : List RansacObservation) : ∀ (e : ℝ)
    (inl : List RansacObservation),
    evalTriLoop X l e inl =
      if ∃ ro ∈ l, ¬ cheirality ro X then none
      else some
        (e + ((l.filter fun ro => decide (reprojErr ro X < threshold)).map
            fun ro => reprojErr ro X).sum,
         inl ++ l.filter fun ro => decide (reprojErr ro X < threshold)) := by
  induction l with
  | nil => intro e inl; simp [evalTriLoop]
  | cons ro rest ih =>
    intro e inl
    by_cases hc : cheirality ro X
    · by_cases he : reprojErr ro X < threshold
      · simp only [evalTriLoop, if_pos hc, if_pos he, ih]
        by_cases hrest : ∃ ro2 ∈ rest, ¬ cheirality ro2 X
        · simp [hrest, hc]
        · simp [hrest, hc, he, add_assoc, List.filter_cons]
      · simp only [evalTriLoop, if_pos hc, if_neg he, ih]
        by_cases hrest : ∃ ro2 ∈ rest, ¬ cheirality ro2 X
        · simp [hrest, hc]
        · simp [hrest, hc, he, List.filter_cons]
    · simp [evalTriLoop, hc]

/-- Claim C4: for every observation list and candidate point, the
evaluation returns the default result (success false, fitness 0, no
inliers) when any observation fails the cheirality test against X, and
otherwise a successful result — even with zero inliers — whose inliers are
exactly the observations with reprojection residual below the 0.1
threshold, whose fitness is the inlier count over the observation count,
whose error is the accumulated inlier residual, and whose inlier_rmse is
error over the square root of the inlier count when inliers exist and
infinite otherwise. -/
theorem eval_triangulate_matches_spec (x : List RansacObservation) (X : Vec3) :
    EvalTriangulate x X = EvalTriangulateSpec x X := by
  unfold EvalTriangulate EvalTriangulateSpec
  rw [evalTriLoop_eq]
  by_cases h : ∃ ro ∈ x, ¬ cheirality ro X
  · rw [if_pos h, if_pos h]
  · rw [if_neg h, if_neg h]
    simp only [zero_add, List.nil_append]
    by_cases hl : 0 < (x.filter fun ro => decide (reprojErr ro X < threshold)).length
    · rw [if_pos hl]
    · rw [if_neg hl]
      have h0 : (x.filter fun ro => decide (reprojErr ro X < threshold)).length = 0 := by
        omega
      rw [h0]
      norm_num

/-- Claim C5: the triangulation fit reports failure exactly when the
external algebraic multi-view solve fails, or the normalized point is
flagged non-finite by the NaN check, or at least one input observation
fails the cheirality test against the normalized point. -/
theorem triangulate_failure_iff (solve : List RansacObservation → Option Vec4)
    (hasNaNChk : Vec3 → Bool) (x : List RansacObservation) :
    (Triangulate solve hasNaNChk x).1 = false ↔
      solve x = none ∨
        ∃ Xh, solve x = some Xh ∧
          (hasNaNChk (hnormalized Xh) = true ∨
            ∃ ro ∈ x, ¬ cheirality ro (hnormalized Xh)) := by
  cases h : solve x with
  | none => simp [Triangulate, h]
  | some Xh =>
    simp only [Triangulate, h, Option.some.injEq]
    by_cases hn : hasNaNChk (hnormalized Xh) = true
    · simp [hn]
    · by_cases ha : x.all (fun ro => decide (cheirality ro (hnormalized Xh))) = true
      · rw [if_neg (by simp [hn]), if_pos ha]
        simp only [List.all_eq_true, decide_eq_true_eq] at ha
        simp [hn, ha]
        intro ro hro
        exact ha ro hro
      · rw [if_neg (by simp [hn]), if_neg ha]
        simp only [List.all_eq_true, decide_eq_true_eq, not_forall] at ha
        simp only [eq_self_iff_true, true_iff]
        refine Or.inr ⟨Xh, rfl, Or.inr ?_⟩
        obtain ⟨ro, hro, hnc⟩ := ha
        exact ⟨ro, hro, hnc⟩

/-!
## Claim C7: the triangulation pass
-/

/-- Claim C7: the triangulation pass is total over the landmark store —
no landmark aborts the pass — and maps every landmark in place: a landmark
with fewer than 3 observations is skipped (its position field is left
exactly as it was, so an absent position stays absent), a landmark whose
triangulation fails is likewise left untouched, and the position is set
exactly for the landmarks with at least 3 observations whose triangulation
succeeds, which are also the ones counted. -/
theorem triangulate_pass_matches_spec
    (triang : List RansacObservation → Bool × Vec3)
    (mkObs : ℕ × Vec2 → RansacObservation) (ldms : Landmarks) :
    triangulatePass triang mkObs ldms = triangulatePassSpec triang mkObs ldms := by
  induction ldms with
  | nil => rfl
  | cons p rest ih =>
    obtain ⟨k, ldm⟩ := p
    by_cases hlen : ldm.obs.length < 3
    · have hns : ¬ (3 ≤ ldm.obs.length ∧ (triang (ldm.obs.map mkObs)).1) := by
        intro hc
        omega
      simp only [triangulatePass, if_pos hlen, ih, triangulatePassSpec,
        List.map_cons, List.countP_cons]
      rw [if_neg hns]
      simp [hns]
    · have h3 : 3 ≤ ldm.obs.length := by omega
      by_cases hsucc : (triang (ldm.obs.map mkObs)).1
      · simp only [triangulatePass, if_neg hlen, hsucc, ih,
          triangulatePassSpec, List.map_cons, List.countP_cons]
        simp [h3, hsucc]
      · simp only [triangulatePass, if_neg hlen, ih, triangulatePassSpec,
          List.map_cons, List.countP_cons]
        simp [h3, hsucc]

/-!
## Claims C8 and C10: the measurement phase
-/

/-- The landmark an operator[] access yields shows exactly the position the
map holds at that key (a default-inserted landmark has no position). -/
theorem lindex_fst_X (m : Landmarks) (k : String) :
    ((lindex m k).1).X = Lx m k := by
  unfold lindex Lx lfind
  cases h : m.find? (fun p => p.1 = k) <;> simp [h, Landmark.init]

/-- An operator[] access never changes which position is visible at any
key: it inserts only default landmarks without positions. -/
theorem Lx_lindex_snd (m : Landmarks) (k k2 : String) :
    Lx (lindex m k).2 k2 = Lx m k2 := by
  unfold lindex
  cases h : m.find? (fun p => p.1 = k) with
  | some p => rfl
  | none =>
    show Lx (m ++ [(k, Landmark.init)]) k2 = Lx m k2
    unfold Lx lfind
    rw [List.find?_append]
    cases h2 : m.find? (fun p => p.1 = k2) with
    | some q => simp
    | none =>
      by_cases hk : k2 = k
      · subst hk
        simp [Landmark.init]
      · have hk2 : ¬ k = k2 := fun hx => hk hx.symm
        simp [hk2]

/-- The visible positions of the measurement's working map determine both
the collected samples (they match the specification's filterMap over the
cyclic corner edges) and the invariance of the visible positions. -/
theorem measureEdges_eq (ms : ℝ) (mid : ℤ) (m0 : Landmarks) :
    ∀ (il : List ℤ) (m : Landmarks) (acc : List ℝ),
      (∀ k, Lx m k = Lx m0 k) →
      (measureEdges ms mid il m acc).1 =
          acc ++ il.filterMap (edgeSampleSpec ms m0 mid) ∧
        (∀ k, Lx (measureEdges ms mid il m acc).2 k = Lx m0 k) := by
  intro il
  induction il with
  | nil => intro m acc hR; exact ⟨by simp [measureEdges], hR⟩
  | cons i rest ih =>
    intro m acc hR
    have h0 : ((lindex m (GetLandmarkID mid i)).1).X =
        Lx m0 (GetLandmarkID mid i) := by
      rw [lindex_fst_X]
      exact hR _
    have hR1 : ∀ k, Lx (lindex m (GetLandmarkID mid i)).2 k = Lx m0 k :=
      fun k => by rw [Lx_lindex_snd]; exact hR k
    have h1 : ((lindex (lindex m (GetLandmarkID mid i)).2
        (GetLandmarkID mid (if i = 3 then 0 else i + 1))).1).X =
        Lx m0 (GetLandmarkID mid (if i = 3 then 0 else i + 1)) := by
      rw [lindex_fst_X]
      exact hR1 _
    have hR2 : ∀ k, Lx (lindex (lindex m (GetLandmarkID mid i)).2
        (GetLandmarkID mid (if i = 3 then 0 else i + 1))).2 k = Lx m0 k :=
      fun k => by rw [Lx_lindex_snd]; exact hR1 k
    simp only [measureEdges, edgeSampleSpec, List.filterMap_cons]
    rw [h0, h1]
    rcases hc0 : Lx m0 (GetLandmarkID mid i) with _ | c0
    · obtain ⟨ha, hb⟩ := ih _ acc hR2
      rcases hc1 : Lx m0 (GetLandmarkID mid (if i = 3 then 0 else i + 1)) with _ | c1
      · exact ⟨ha, hb⟩
      · exact ⟨ha, hb⟩
    · rcases hc1 : Lx m0 (GetLandmarkID mid (if i = 3 then 0 else i + 1)) with _ | c1
      · obtain ⟨ha, hb⟩ := ih _ acc hR2
        exact ⟨ha, hb⟩
      · obtain ⟨ha, hb⟩ :=
          ih _ (acc ++ [ms / norm3 (sub3 c1 c0)]) hR2
        refine ⟨?_, hb⟩
        rw [ha]
        simp

/-- The outer measurement loop collects, marker by marker, exactly the
specification's samples, and keeps every visible position unchanged. -/
theorem measureMarkers_eq (ms : ℝ) (m0 : Landmarks) :
    ∀ (mids : List ℤ) (m : Landmarks) (acc : List ℝ),
      (∀ k, Lx m k = Lx m0 k) →
      (measureMarkers ms mids m acc).1 =
          acc ++ mids.flatMap (markerSamplesSpec ms m0) ∧
        (∀ k, Lx (measureMarkers ms mids m acc).2 k = Lx m0 k) := by
  intro mids
  induction mids with
  | nil => intro m acc hR; exact ⟨by simp [measureMarkers], hR⟩
  | cons mid rest ih =>
    intro m acc hR
    obtain ⟨ha, hb⟩ := measureEdges_eq ms mid m0 [0, 1, 2, 3] m acc hR
    simp only [measureMarkers]
    obtain ⟨hc, hd⟩ := ih _ _ hb
    refine ⟨?_, hd⟩
    rw [hc, ha]
    simp [markerSamplesSpec, List.flatMap_cons]

/-- The accumulate of pre-divided terms is the plain sum divided by the
fixed divisor. -/
theorem foldl_add_div (d : ℝ) (l : List ℝ) : ∀ c : ℝ,
    l.foldl (fun a b => a + b / d) c = c + l.sum / d := by
  induction l with
  | nil => intro c; simp
  | cons b rest ih =>
    intro c
    simp only [List.foldl_cons, ih, List.sum_cons, add_div, add_assoc]

/-- The accumulated scale is the arithmetic mean of the samples. -/
theorem scaleOf_eq_mean (l : List ℝ) : scaleOf l = l.sum / (l.length : ℝ) := by
  unfold scaleOf
  rw [foldl_add_div]
  simp

/-- Claim C8: the measurement phase collects, for every observed marker id
and for the 4 corner edges in cyclic order 0 to 1, 1 to 2, 2 to 3, 3 to 0,
a sample equal to the known edge length divided by the distance between the
two triangulated corner positions, silently skipping any edge with a
missing endpoint position; and the final scale is the arithmetic mean of
the collected samples, computed as the accumulated sum of samples each
pre-divided by the sample count. -/
theorem measure_scales_spec (ms : ℝ) (mids : List ℤ) (ldms : Landmarks) :
    (measureScales ms mids ldms).1 =
        mids.flatMap (markerSamplesSpec ms ldms) ∧
      scaleOf (measureScales ms mids ldms).1 =
        ((measureScales ms mids ldms).1).sum /
          (((measureScales ms mids ldms).1).length : ℝ) := by
  obtain ⟨ha, _⟩ := measureMarkers_eq ms ldms mids ldms [] (fun _ => rfl)
  refine ⟨?_, scaleOf_eq_mean _⟩
  rw [show measureScales ms mids ldms = measureMarkers ms mids ldms [] from rfl, ha]
  simp

/-- An operator[] access on a key already present leaves the map
untouched. -/
theorem lindex_snd_of_found (m : Landmarks) (k : String)
    (h : (lfind m k).isSome = true) : (lindex m k).2 = m := by
  unfold lfind at h
  unfold lindex
  cases hf : m.find? (fun p => p.1 = k) with
  | some p => rfl
  | none =>
    rw [hf] at h
    simp at h

/-- When every key an edge walk touches is present, the walk leaves the map
untouched. -/
theorem measureEdges_keeps (ms : ℝ) (mid : ℤ) :
    ∀ (il : List ℤ) (m : Landmarks) (acc : List ℝ),
      (∀ i ∈ il, (lfind m (GetLandmarkID mid i)).isSome = true ∧
        (lfind m (GetLandmarkID mid (if i = 3 then 0 else i + 1))).isSome = true) →
      (measureEdges ms mid il m acc).2 = m := by
  intro il
  induction il with
  | nil => intro m acc _; rfl
  | cons i rest ih =>
    intro m acc h
    obtain ⟨h0, h1⟩ := h i (List.mem_cons_self i rest)
    have htail : ∀ j ∈ rest, (lfind m (GetLandmarkID mid j)).isSome = true ∧
        (lfind m (GetLandmarkID mid (if j = 3 then 0 else j + 1))).isSome = true :=
      fun j hj => h j (List.mem_cons_of_mem i hj)
    have e0 : (lindex m (GetLandmarkID mid i)).2 = m := lindex_snd_of_found m _ h0
    simp only [measureEdges, e0]
    have e1 : (lindex m
        (GetLandmarkID mid (if i = 3 then 0 else i + 1))).2 = m :=
      lindex_snd_of_found m _ h1
    rw [e1]
    rcases (lindex m (GetLandmarkID mid i)).1.X with _ | c0
    · exact ih m acc htail
    · rcases (lindex m
          (GetLandmarkID mid (if i = 3 then 0 else i + 1))).1.X with _ | c1
      · exact ih m acc htail
      · exact ih m _ htail

/-- Counterexample to claim C10 at a concrete input: measuring marker 0
against an empty landmark store inserts default landmarks through the
std::map operator[] lookups, so the landmark mapping is modified. -/
theorem measure_scales_modifies_map :
    (measureScales 1 [0] ([] : Landmarks)).2 ≠ ([] : Landmarks) := by
  intro h
  have h4 : (measureScales 1 [0] ([] : Landmarks)).2.length = 4 := rfl
  rw [h] at h4
  exact absurd h4 (by decide)

/-- Claim C10 (amended): the measurement phase reads corner positions only
and never modifies or removes an existing entry; its operator[] lookups
insert a default landmark when a key is absent, so when every corner key of
every observed marker is present in the store — as holds when the detection
interface supplies all 4 corners of each observed marker — the landmark
mapping is returned entirely unchanged, the scale samples being the sole
output. -/
theorem measure_scales_keeps_map (ms : ℝ) (mids : List ℤ) (ldms : Landmarks)
    (h : ∀ mid ∈ mids, ∀ i ∈ ([0, 1, 2, 3] : List ℤ),
      (lfind ldms (GetLandmarkID mid i)).isSome = true) :
    (measureScales ms mids ldms).2 = ldms := by
  unfold measureScales
  suffices hgen : ∀ (mids2 : List ℤ) (acc : List ℝ),
      (∀ mid ∈ mids2, ∀ i ∈ ([0, 1, 2, 3] : List ℤ),
        (lfind ldms (GetLandmarkID mid i)).isSome = true) →
      (measureMarkers ms mids2 ldms acc).2 = ldms by
    exact hgen mids [] h
  intro mids2
  induction mids2 with
  | nil => intro acc _; rfl
  | cons mid rest ih =>
    intro acc h2
    have hhead := h2 mid (List.mem_cons_self mid rest)
    have hedges : ∀ i ∈ ([0, 1, 2, 3] : List ℤ),
        (lfind ldms (GetLandmarkID mid i)).isSome = true ∧
        (lfind ldms (GetLandmarkID mid
          (if i = 3 then 0 else i + 1))).isSome = true := by
      intro i hi
      refine ⟨hhead i hi, hhead _ ?_⟩
      have : i = 0 ∨ i = 1 ∨ i = 2 ∨ i = 3 := by
        simpa using hi
      rcases this with h | h | h | h <;> subst h <;> decide
    have e := measureEdges_keeps ms mid [0, 1, 2, 3] ldms acc hedges
    simp only [measureMarkers, e]
    exact ih _ fun j hj => h2 j (List.mem_cons_of_mem mid hj)

/-- A landmark store holding all 4 corner landmarks of marker 0, none of
them triangulated. -/
def fourCorners : Landmarks :=
  [("0.0", Landmark.init), ("0.1", Landmark.init),
   ("0.2", Landmark.init), ("0.3", Landmark.init)]

/-- Witness for the amended claim C10 at a concrete input: with all 4
corner keys of marker 0 present, the measurement leaves the store
unchanged. -/
theorem measure_scales_keeps_map_witness :
    (∀ mid ∈ ([0] : List ℤ), ∀ i ∈ ([0, 1, 2, 3] : List ℤ),
      (lfind fourCorners (GetLandmarkID mid i)).isSome = true) ∧
    (measureScales 1 [0] fourCorners).2 = fourCorners :=
  ⟨by decide, measure_scales_keeps_map 1 [0] fourCorners (by decide)⟩

/-!
## Claim C1: when scale estimation is fatal
-/

/-- A default observation record for concrete instantiations. -/
noncomputable def obsDefault : RansacObservation :=
  { obs := (0, 0), pt := (0, 0, 0), camResidual := fun _ _ => (0, 0),
    pose := fun v => v }

/-- A concrete always-successful triangulation: the point is placed at the
first observation's first pixel coordinate. -/
noncomputable def triangC1 : List RansacObservation → Bool × Vec3 :=
  fun l => (true, ((l.headD obsDefault).obs.1, 0, 0))

/-- A concrete observation resolver carrying the pixel through. -/
noncomputable def mkObsC1 : ℕ × Vec2 → RansacObservation := fun p =>
  { obs := p.2, pt := (0, 0, 0), camResidual := fun _ _ => (0, 0),
    pose := fun v => v }

/-- A landmark store where corners 0 and 1 of marker 0 have 3 observations
each (triangulating to distinct points) and corners 2 and 3 have none: it
yields 2 triangulated landmarks but exactly 1 scale sample. -/
noncomputable def ldmsC1 : Landmarks :=
  [("0.0",
    { id := "0.0", obs := [(0, (0, 0)), (1, (0, 0)), (2, (0, 0))], X := none }),
   ("0.1",
    { id := "0.1", obs := [(0, (1, 0)), (1, (1, 0)), (2, (1, 0))], X := none }),
   ("0.2", { id := "0.2", obs := [], X := none }),
   ("0.3", { id := "0.3", obs := [], X := none })]

/-- Counterexample to claim C1 at a concrete input: the store ldmsC1
produces exactly 1 scale sample, yet scale estimation returns a scale
instead of failing: the code is fatal only when the sample list is empty
(and, separately, when fewer than 2 landmarks triangulated). -/
theorem estimate_scale_ok_with_one_sample :
    (measureScales 2 [0] (triangulatePass triangC1 mkObsC1 ldmsC1).1).1.length
        = 1 ∧
      ∃ v, estimateScale triangC1 mkObsC1 2 [0] ldmsC1 = Except.ok v :=
  ⟨rfl, ⟨_, rfl⟩⟩

/-- Claim C1 (amended): scale estimation proceeds and returns a scale
exactly when at least 2 landmarks were triangulated and at least 1 scale
sample was collected; it fails fatally (NO_LDMS) when fewer than 2
landmarks triangulated and fatally (NO_SCALES) when the sample list is
empty — a single scale sample does not make it fail. -/
theorem estimate_scale_ok_iff (triang : List RansacObservation → Bool × Vec3)
    (mkObs : ℕ × Vec2 → RansacObservation) (ms : ℝ) (mids : List ℤ)
    (ldms : Landmarks) :
    (∃ v, estimateScale triang mkObs ms mids ldms = Except.ok v) ↔
      (2 ≤ (triangulatePass triang mkObs ldms).2 ∧
        (measureScales ms mids (triangulatePass triang mkObs ldms).1).1 ≠ []) := by
  unfold estimateScale
  by_cases h2 : (triangulatePass triang mkObs ldms).2 < 2
  · rw [if_pos h2]
    constructor
    · rintro ⟨v, hv⟩
      exact absurd hv (by simp)
    · intro hc
      omega
  · rw [if_neg h2]
    by_cases he :
        (measureScales ms mids (triangulatePass triang mkObs ldms).1).1.isEmpty
    · rw [if_pos he]
      constructor
      · rintro ⟨v, hv⟩
        exact absurd hv (by simp)
      · intro hc
        exact absurd (List.isEmpty_iff.mp he) hc.2
    · rw [if_neg he]
      constructor
      · intro _
        refine ⟨by omega, ?_⟩
        intro hnil
        exact he (by simp [hnil])
      · intro _
        exact ⟨_, rfl⟩

/-!
## Claim C6: the adaptive iteration budget

The data-model invariants of the specification (fitness is an inlier ratio
in the unit interval; a result with fitness 0 has no inliers and so keeps
the infinite default inlier_rmse) are packaged as wellFormedEval; the
triangulation evaluation satisfies them.  budgetInv is the loop invariant
tying the current breakIter to the current best fitness.
-/

/-- Results produced by the evaluation function satisfy the data-model
invariants: fitness lies in the unit interval, and zero fitness leaves the
inlier root-mean-square error at its infinite default. -/
def wellFormedEval {V M : Type} (eval : List V → M → RANSACResult V) : Prop :=
  ∀ x m, 0 ≤ (eval x m).fitness ∧ (eval x m).fitness ≤ 1 ∧
    ((eval x m).fitness = 0 → (eval x m).inlier_rmse = ⊤)

/-- Loop invariant of the RANSAC iteration: either no improvement has been
accepted yet (zero fitness, infinite inlier_rmse, breakIter still the full
iteration count), or the bound is exactly the floored adaptive budget of
the current best fitness, which lies strictly between 0 and 1. -/
def budgetInv {V M : Type} (nSamples nIters : ℕ) (probability : ℝ)
    (s : RState V M) : Prop :=
  (s.best.fitness = 0 ∧ s.best.inlier_rmse = ⊤ ∧ s.breakIter = nIters) ∨
    (0 < s.best.fitness ∧ s.best.fitness < 1 ∧
      s.breakIter =
        ⌊min (nIters : ℝ) (budget probability nSamples s.best.fitness)⌋₊)

/-- The adaptive budget shrinks as the fitness grows. -/
theorem budget_antitone (probability : ℝ) (nSamples : ℕ)
    (hp1 : 0 < probability) (hp2 : probability < 1) (hn : 1 ≤ nSamples)
    (f g : ℝ) (hf0 : 0 < f) (hfg : f ≤ g) (hg1 : g < 1) :
    budget probability nSamples g ≤ budget probability nSamples f := by
  unfold budget
  have hf1 : f < 1 := lt_of_le_of_lt hfg hg1
  have hg0 : 0 < g := lt_of_lt_of_le hf0 hfg
  have hfn : f ^ nSamples ≤ g ^ nSamples := pow_le_pow_left₀ hf0.le hfg _
  have hfn0 : 0 < f ^ nSamples := pow_pos hf0 _
  have hfn1 : f ^ nSamples < 1 := pow_lt_one₀ hf0.le hf1 (by omega)
  have hgn1 : g ^ nSamples < 1 := pow_lt_one₀ hg0.le hg1 (by omega)
  have hd1 : Real.log (1 - f ^ nSamples) < 0 :=
    Real.log_neg (by linarith) (by linarith)
  have hd2 : Real.log (1 - g ^ nSamples) < 0 :=
    Real.log_neg (by linarith [pow_pos hg0 nSamples]) (by linarith)
  have hnum : Real.log (1 - probability) < 0 :=
    Real.log_neg (by linarith) (by linarith)
  have hdd : Real.log (1 - g ^ nSamples) ≤ Real.log (1 - f ^ nSamples) := by
    apply Real.log_le_log (by linarith [pow_pos hg0 nSamples])
    linarith
  have key : (- Real.log (1 - probability)) / (- Real.log (1 - g ^ nSamples)) ≤
      (- Real.log (1 - probability)) / (- Real.log (1 - f ^ nSamples)) := by
    apply div_le_div_of_nonneg_left (by linarith) (by linarith) (by linarith)
  rw [neg_div_neg_eq, neg_div_neg_eq] at key
  exact key

/-- One loop-body step never raises breakIter, and preserves the budget
invariant whenever the loop continues. -/
theorem ransacBody_budget_step {V M : Type} (x : List V)
    (fit : List V → Bool × M) (eval : List V → M → RANSACResult V)
    (nSamples nIters : ℕ) (probability : ℝ) (hwf : wellFormedEval eval)
    (hp1 : 0 < probability) (hp2 : probability < 1) (hn : 1 ≤ nSamples)
    (s : RState V M) (sample : List V)
    (hinv : budgetInv nSamples nIters probability s) :
    (ransacBody x fit eval nSamples nIters probability s sample).1.breakIter ≤
        s.breakIter ∧
      ((ransacBody x fit eval nSamples nIters probability s sample).2 = false →
        budgetInv nSamples nIters probability
          (ransacBody x fit eval nSamples nIters probability s sample).1) := by
  simp only [ransacBody]
  split
  · exact ⟨le_refl _, fun _ => hinv⟩
  · split
    · exact ⟨le_refl _, fun _ => hinv⟩
    · split
      · rename_i hft hrs hacc
        obtain ⟨hwf0, hwf1, hwf2⟩ := hwf x (fit sample).2
        have hfpos : 0 < (eval x (fit sample).2).fitness := by
          rcases hinv with ⟨hz, hrmse, _⟩ | ⟨hpos, _, _⟩
          · rcases hacc with hgt | ⟨_, hrg⟩
            · rw [hz] at hgt
              exact hgt
            · rw [hrmse] at hrg
              exact absurd hrg (by simp)
          · rcases hacc with hgt | ⟨heq, _⟩
            · exact lt_trans hpos hgt
            · rw [heq]
              exact hpos
        split
        · rename_i hlt
          refine ⟨?_, fun _ => Or.inr ⟨hfpos, hlt, rfl⟩⟩
          rcases hinv with ⟨_, _, hbi⟩ | ⟨hpos, hlt2, hbi⟩
          · rw [hbi]
            calc ⌊min (nIters : ℝ)
                  (budget probability nSamples
                    (eval x (fit sample).2).fitness)⌋₊ ≤
                ⌊(nIters : ℝ)⌋₊ := Nat.floor_le_floor (min_le_left _ _)
              _ = nIters := Nat.floor_natCast _
          · have hle : s.best.fitness ≤ (eval x (fit sample).2).fitness := by
              rcases hacc with hgt | ⟨heq, _⟩
              · exact hgt.le
              · rw [heq]
            have hb := budget_antitone probability nSamples hp1 hp2 hn
                s.best.fitness (eval x (fit sample).2).fitness hpos hle hlt
            rw [hbi]
            exact Nat.floor_le_floor (min_le_min (le_refl _) hb)
        · rename_i hge
          exact ⟨le_refl _, fun hcontra => by simp at hcontra⟩
      · exact ⟨le_refl _, fun _ => hinv⟩

/-- Run-level monotonicity: from any state satisfying the budget invariant,
the loop never raises breakIter. -/
theorem ransacLoop_breakIter_le {V M : Type} (x : List V)
    (fit : List V → Bool × M) (eval : List V → M → RANSACResult V)
    (nSamples nIters : ℕ) (probability : ℝ) (draws : ℕ → List V)
    (hwf : wellFormedEval eval) (hp1 : 0 < probability)
    (hp2 : probability < 1) (hn : 1 ≤ nSamples) :
    ∀ (fuel i : ℕ) (s : RState V M), budgetInv nSamples nIters probability s →
      (ransacLoop x fit eval nSamples nIters probability draws fuel i
          s).breakIter ≤ s.breakIter := by
  intro fuel
  induction fuel with
  | zero => intro i s _; exact le_refl _
  | succ fuel ih =>
    intro i s hinv
    simp only [ransacLoop]
    split
    · exact le_refl _
    · obtain ⟨hle, hinv2⟩ := ransacBody_budget_step x fit eval nSamples nIters
        probability hwf hp1 hp2 hn s (draws i) hinv
      split
      · exact hle
      · rename_i hbrk
        have hfalse :
            (ransacBody x fit eval nSamples nIters probability s
              (draws i)).2 = false := by
          revert hbrk
          cases (ransacBody x fit eval nSamples nIters probability s
            (draws i)).2 <;> simp
        exact le_trans (ih (i + 1) _ (hinv2 hfalse)) hle

/-- Claim C6: for an evaluation function obeying the data-model invariants
and a target probability in the open unit interval, (a) an accepted
improvement with fitness exactly 1 sets the break flag, and the loop then
terminates immediately, returning that state without running further
iterations; (b) an accepted improvement with any other fitness continues
the loop and recomputes the effective bound as the floor of
min(maxIters, ln(1 - targetProbability) / ln(1 - fitness^sampleSize));
and (c) from any state satisfying the loop invariant — in particular from
the initial state — the effective bound never increases over the rest of
the run. -/
theorem ransac_adaptive_budget {V M : Type} (x : List V)
    (fit : List V → Bool × M) (eval : List V → M → RANSACResult V)
    (nSamples nIters : ℕ) (probability : ℝ) (draws : ℕ → List V)
    (hwf : wellFormedEval eval) (hp1 : 0 < probability)
    (hp2 : probability < 1) (hn : 1 ≤ nSamples) :
    (∀ (s : RState V M) (sample : List V) (m : M) (r : RANSACResult V),
      fit sample = (true, m) → eval x m = r → r.success = true →
      (r.fitness > s.best.fitness ∨
        (r.fitness = s.best.fitness ∧ r.inlier_rmse > s.best.inlier_rmse)) →
      ((r.fitness = 1 →
          ransacBody x fit eval nSamples nIters probability s sample =
            (⟨r, m, s.breakIter⟩, true)) ∧
        (r.fitness ≠ 1 →
          ransacBody x fit eval nSamples nIters probability s sample =
            (⟨r, m, ⌊min (nIters : ℝ)
              (budget probability nSamples r.fitness)⌋₊⟩, false)))) ∧
    (∀ (fuel i : ℕ) (s : RState V M), ¬ i > s.breakIter →
      (ransacBody x fit eval nSamples nIters probability s (draws i)).2 = true →
      ransacLoop x fit eval nSamples nIters probability draws (fuel + 1) i s =
        (ransacBody x fit eval nSamples nIters probability s (draws i)).1) ∧
    (∀ (fuel i : ℕ) (s : RState V M), budgetInv nSamples nIters probability s →
      (ransacLoop x fit eval nSamples nIters probability draws fuel i
          s).breakIter ≤ s.breakIter) := by
  refine ⟨?_, ?_, ransacLoop_breakIter_le x fit eval nSamples nIters
    probability draws hwf hp1 hp2 hn⟩
  · intro s sample m r hf he hs hacc
    have hle1 : r.fitness ≤ 1 := by
      have := (hwf x m).2.1
      rw [he] at this
      exact this
    rw [ransacBody_eq x fit eval nSamples nIters probability s sample m r hf he hs]
    rw [if_pos hacc]
    constructor
    · intro h1
      rw [if_neg (by rw [h1]; exact lt_irrefl 1)]
    · intro h1
      rw [if_pos (lt_of_le_of_ne hle1 h1)]
  · intro fuel i s hi hbrk
    simp only [ransacLoop, if_neg hi, hbrk]
    simp

/-- Witness for claim C6 at a concrete input: the constant evaluation with
fitness one half is well formed, the probability one half lies in the open
unit interval, and the sample size 2 is positive. -/
theorem ransac_adaptive_budget_witness :
    wellFormedEval halfEval ∧ (0 : ℝ) < 1 / 2 ∧ (1 / 2 : ℝ) < 1 ∧ 1 ≤ 2 ∧
    ((∀ (s : RState ℕ ℕ) (sample : List ℕ) (m : ℕ) (r : RANSACResult ℕ),
      lenFit sample = (true, m) → halfEval [] m = r → r.success = true →
      (r.fitness > s.best.fitness ∨
        (r.fitness = s.best.fitness ∧ r.inlier_rmse > s.best.inlier_rmse)) →
      ((r.fitness = 1 →
          ransacBody [] lenFit halfEval 2 5 (1 / 2) s sample =
            (⟨r, m, s.breakIter⟩, true)) ∧
        (r.fitness ≠ 1 →
          ransacBody [] lenFit halfEval 2 5 (1 / 2) s sample =
            (⟨r, m, ⌊min ((5 : ℕ) : ℝ)
              (budget (1 / 2) 2 r.fitness)⌋₊⟩, false)))) ∧
    (∀ (fuel i : ℕ) (s : RState ℕ ℕ), ¬ i > s.breakIter →
      (ransacBody [] lenFit halfEval 2 5 (1 / 2) s ((fun _ => []) i)).2 = true →
      ransacLoop [] lenFit halfEval 2 5 (1 / 2) (fun _ => []) (fuel + 1) i s =
        (ransacBody [] lenFit halfEval 2 5 (1 / 2) s ((fun _ => []) i)).1) ∧
    (∀ (fuel i : ℕ) (s : RState ℕ ℕ), budgetInv 2 5 (1 / 2) s →
      (ransacLoop [] lenFit halfEval 2 5 (1 / 2) (fun _ => []) fuel i
          s).breakIter ≤ s.breakIter)) := by
  have hwf : wellFormedEval halfEval := by
    intro x m
    refine ⟨?_, ?_, ?_⟩ <;> norm_num [halfEval, halfResult]
  exact ⟨hwf, by norm_num, by norm_num, by norm_num,
    ransac_adaptive_budget [] lenFit halfEval 2 5 (1 / 2) (fun _ => []) hwf
      (by norm_num) (by norm_num) (by norm_num)⟩

end PgsRecon
